import Mathlib

/-!
Shallow embedding of the video-aggregation pipeline of this repository:
the YouTube API service (src/services/youtubeApi.ts) and the cache service.

Modelling conventions:
- JavaScript `undefined`-able fields become `Option`;
- JavaScript truthiness is modelled explicitly: a string is truthy iff it is
  nonempty (`strTruthy`), a number is truthy iff it is nonzero (`numTruthy`);
- numeric coordinates and epoch timestamps are `Int` (the code never does
  arithmetic on coordinates, only truthiness tests, so NaN subtleties of
  floating point do not arise in any claim);
- `Date.now()` is passed in explicitly as a parameter `now`;
- the network is passed in explicitly: each endpoint response is a parameter,
  with `none` standing for a failed call (non-ok status or network error,
  which the source turns into a thrown exception caught by the enclosing
  try/catch);
- `AsyncStorage` holds a single value under one key; it is modelled as
  `Option CachedData` (JSON stringify/parse round-trips this data shape);
- the reverse geocoder is a parameter `geo : Geocoder`; the source's
  `reverseGeocode` never throws (it returns `{}` on failure), so a failing
  geocoder is simply `fun _ _ => ⟨none, none⟩`.
-/

/-- `LocationData` from src/services/youtubeApi.ts (the spec's GeoInfo). -/
structure LocationData where
  city : Option String
  country : Option String
  latitude : Option Int
  longitude : Option Int
deriving Repr, DecidableEq

/-- `VideoData` from src/services/youtubeApi.ts (the spec's MediaItem). -/
structure VideoData where
  id : String
  title : String
  channelName : String
  publishedAt : String
  thumbnailUrl : String
  videoUrl : String
  tags : List String
  location : Option LocationData
  recordingDate : Option String
deriving Repr, DecidableEq

/-- Split a character list at every occurrence of `sep` (the semantics of
JavaScript `split` / `String.splitOn` for a one-character separator), by
structural recursion so the kernel can evaluate it. -/
def splitOnChar (sep : Char) : List Char → List (List Char)
  | [] => [[]]
  | c :: rest =>
    let r := splitOnChar sep rest
    if c = sep then [] :: r
    else
      match r with
      | [] => [[c]]
      | h :: t => (c :: h) :: t

/-- Remove leading and trailing whitespace (the semantics of JavaScript
`String.prototype.trim` on the ASCII whitespace the claims involve). -/
def trimChars (l : List Char) : List Char :=
  ((l.dropWhile Char.isWhitespace).reverse.dropWhile Char.isWhitespace).reverse

/-- JavaScript truthiness of a possibly-undefined string: truthy iff present
and nonempty (the empty string is falsy). -/
def strTruthy : Option String → Bool
  | some s => !s.data.isEmpty
  | none => false

/-- JavaScript truthiness of a possibly-undefined number: truthy iff present
and nonzero. -/
def numTruthy : Option Int → Bool
  | some n => n != 0
  | none => false

/-- JavaScript `a || b` on possibly-undefined strings. -/
def jsOrStr (a b : Option String) : Option String :=
  if strTruthy a then a else b

/-- `extractCityFromDescription` (src/services/youtubeApi.ts lines 32-47).
The source tries the regex `^([^,]+),\s*[^,]+$` ("City, Country") and then
`^([^,]+),\s*[^,]+,\s*[^,]+$` ("City, State, Country"), returning the
trimmed first capture group of the first match.  Since `[^,]` also matches
whitespace, the first pattern matches exactly the strings with exactly one
comma and a nonempty part on each side of it, with group 1 the part before
the comma, and the second pattern matches exactly the strings with exactly
two commas and three nonempty parts, with group 1 the first part.  We embed
this by splitting at commas. -/
def extractCityFromDescription (locationDesc : String) : Option String :=
  match splitOnChar ',' locationDesc.data with
  | [a, b] =>
    if !a.isEmpty && !b.isEmpty then some (String.mk (trimChars a)) else none
  | [a, b, c] =>
    if !a.isEmpty && !b.isEmpty && !c.isEmpty then some (String.mk (trimChars a))
    else none
  | _ => none

/-- `extractCountryFromDescription` (src/services/youtubeApi.ts lines 49-63).
The source matches `,\s*([^,]+)$`: this succeeds exactly when the string
contains a comma and the segment after the last comma is nonempty; the
capture group is that segment with some prefix of its leading whitespace
removed, and it is then trimmed, so the result is the trimmed last
segment. -/
def extractCountryFromDescription (locationDesc : String) : Option String :=
  match (splitOnChar ',' locationDesc.data).reverse with
  | last :: _ :: _ =>
    if !last.isEmpty then some (String.mk (trimChars last)) else none
  | _ => none

/-- `CachedData` from the cache service: the persisted batch. -/
structure CachedData where
  videos : List VideoData
  timestamp : Int
deriving Repr, DecidableEq

/-- `CACHE_EXPIRATION_TIME` = 24 hours in milliseconds. -/
def CACHE_EXPIRATION_TIME : Int := 24 * 60 * 60 * 1000

/-- `cacheService.saveToCache`: overwrites the stored batch with the given
videos stamped with the current time. -/
def saveToCache (now : Int) (videos : List VideoData) (_store : Option CachedData) :
    Option CachedData :=
  some { videos := videos, timestamp := now }

/-- `cacheService.clearCache`: removes the stored batch. -/
def clearCache (_store : Option CachedData) : Option CachedData :=
  none

/-- `cacheService.getFromCache`: returns the stored videos if a batch exists
and its age is within the expiration window, else `null`.  Returns the
result together with the storage state afterwards.

On the expired branch the source executes `await this.clearCache()`; since
`getFromCache` is an arrow function, `this` is the lexical module-level
`this` (undefined under ESM/Babel, the exports object under CommonJS), on
which `clearCache` is not defined, so this line throws a TypeError.  The
surrounding catch swallows it and returns `null`; the stored batch is NOT
removed.  The embedding therefore leaves the store unchanged on every
branch. -/
def getFromCache (now : Int) (store : Option CachedData) :
    Option (List VideoData) × Option CachedData :=
  match store with
  | none => (none, store)
  | some cachedData =>
    let cacheAge := now - cachedData.timestamp
    if cacheAge > CACHE_EXPIRATION_TIME then
      (none, store)
    else
      (some cachedData.videos, store)

/-- `cacheService.isCacheValid`: a batch exists and its age is within the
expiration window. -/
def isCacheValid (now : Int) (store : Option CachedData) : Bool :=
  match store with
  | none => false
  | some cachedData => now - cachedData.timestamp ≤ CACHE_EXPIRATION_TIME

/-! ### Timestamp parsing

`fetchAllVideos` sorts by `new Date(v.publishedAt).getTime()`.  The API
delivers `publishedAt` as UTC ISO-8601 (`YYYY-MM-DDTHH:MM:SSZ`, possibly with
fractional seconds; the date-only form `YYYY-MM-DD` is also parsed as UTC by
JavaScript).  We embed `getTime` for exactly these forms; any other string
gives `none` (NaN in JavaScript, where the sort order is unspecified —
theorems about the sort therefore carry a well-formedness hypothesis). -/

/-- Numeric value of a digit list (most significant first). -/
def digitsVal (l : List Char) : Nat :=
  l.foldl (fun a c => a * 10 + (c.toNat - 48)) 0

/-- Parse a fixed-width decimal number. -/
def parseFixedNat (l : List Char) (width : Nat) : Option Nat :=
  if l.length == width && l.all Char.isDigit then some (digitsVal l) else none

def isLeapYear (y : Nat) : Bool :=
  (y % 4 == 0 && y % 100 != 0) || y % 400 == 0

def daysInMonth (y m : Nat) : Nat :=
  if m == 2 then (if isLeapYear y then 29 else 28)
  else if m == 4 || m == 6 || m == 9 || m == 11 then 30
  else 31

/-- Days from 1970-01-01 to the given civil date (valid dates from 1970 on). -/
def daysSinceEpoch (y m d : Nat) : Nat :=
  let yearDays := (List.range (y - 1970)).foldl
    (fun acc i => acc + (if isLeapYear (1970 + i) then 366 else 365)) 0
  let monthDays := (List.range (m - 1)).foldl
    (fun acc i => acc + daysInMonth y (i + 1)) 0
  yearDays + monthDays + (d - 1)

/-- Parse `YYYY-MM-DD` to epoch milliseconds at UTC midnight. -/
def parseDatePart (l : List Char) : Option Int :=
  match splitOnChar '-' l with
  | [ys, ms, ds] =>
    match parseFixedNat ys 4, parseFixedNat ms 2, parseFixedNat ds 2 with
    | some y, some mo, some d =>
      if 1970 ≤ y && 1 ≤ mo && mo ≤ 12 && 1 ≤ d && d ≤ daysInMonth y mo then
        some ((daysSinceEpoch y mo d : Int) * 86400000)
      else none
    | _, _, _ => none
  | _ => none

/-- Parse `HH:MM:SS(.mmm)?Z` to milliseconds within the day. -/
def parseTimePart (l : List Char) : Option Int :=
  match l.getLast? with
  | some 'Z' =>
    match splitOnChar ':' l.dropLast with
    | [hs, ms, ss] =>
      let secFrac := splitOnChar '.' ss
      let secMs : Option (Nat × Nat) :=
        match secFrac with
        | [sec] =>
          match parseFixedNat sec 2 with
          | some s => some (s, 0)
          | none => none
        | [sec, frac] =>
          match parseFixedNat sec 2, parseFixedNat frac 3 with
          | some s, some f => some (s, f)
          | _, _ => none
        | _ => none
      match parseFixedNat hs 2, parseFixedNat ms 2, secMs with
      | some h, some m, some (s, f) =>
        if h ≤ 23 && m ≤ 59 && s ≤ 59 then
          some ((((h * 60 + m) * 60 + s) * 1000 + f : Nat) : Int)
        else none
      | _, _, _ => none
    | _ => none
  | _ => none

/-- `new Date(s).getTime()` for the UTC ISO-8601 forms the API produces;
`none` for anything else (NaN in JavaScript). -/
def parseISOTime (s : String) : Option Int :=
  match splitOnChar 'T' s.data with
  | [d] => parseDatePart d
  | [d, t] =>
    match parseDatePart d, parseTimePart t with
    | some dd, some tt => some (dd + tt)
    | _, _ => none
  | _ => none

/-- The sort key of `fetchAllVideos` (ill-formed timestamps default to 0;
theorems about the sort are scoped to well-formed timestamps). -/
def timeKey (v : VideoData) : Int :=
  (parseISOTime v.publishedAt).getD 0

/-! ### The YouTube API service -/

/-- Result of `reverseGeocode` (src/services/youtubeApi.ts lines 69-102): an
optional city and country.  The source never throws here (any failure yields
`{}`), and the fields are never the empty string (each is built with
`x || undefined`), so a geocoder is just a function to this shape. -/
structure GeoResult where
  city : Option String
  country : Option String
deriving Repr, DecidableEq

/-- The reverse geocoder as a deterministic oracle: one result per
coordinate pair. -/
abbrev Geocoder := Int → Int → GeoResult

/-- Thumbnail URLs of a search snippet (`snippet.thumbnails.medium?.url`,
`snippet.thumbnails.default?.url`). -/
structure Thumbnails where
  mediumUrl : Option String
  defaultUrl : Option String
deriving Repr, DecidableEq

/-- The snippet part of a search result or video detail record. -/
structure Snippet where
  title : String
  channelTitle : String
  publishedAt : String
  thumbnails : Thumbnails
  tags : Option (List String)
  locationDescription : Option String
deriving Repr, DecidableEq

/-- One item of the search endpoint's response (`item.id.videoId`,
`item.snippet`). -/
structure SearchItem where
  videoId : String
  snippet : Snippet
deriving Repr, DecidableEq

/-- The search endpoint's response body (`searchData.items` may be absent). -/
structure SearchData where
  items : Option (List SearchItem)
deriving Repr, DecidableEq

/-- `recordingDetails.location` of a video detail record, as delivered by
the API (raw fields, before the code's truthiness-normalisation). -/
structure RawLocation where
  city : Option String
  country : Option String
  latitude : Option Int
  longitude : Option Int
deriving Repr, DecidableEq

/-- `recordingDetails` of a video detail record. -/
structure RecordingDetails where
  location : Option RawLocation
  recordingDate : Option String
deriving Repr, DecidableEq

/-- One item of the videos (detail) endpoint's response. -/
structure VideoDetail where
  id : String
  snippet : Option Snippet
  recordingDetails : Option RecordingDetails
deriving Repr, DecidableEq

/-- The videos (detail) endpoint's response body. -/
structure VideosData where
  items : Option (List VideoDetail)
deriving Repr, DecidableEq

/-- `videoDetailsMap` (src/services/youtubeApi.ts lines 146-149): a `Map`
built by `set(item.id, item)` in order, so a later record with the same id
overwrites an earlier one. -/
def buildDetailsMap (items : List VideoDetail) : String → Option VideoDetail :=
  fun id => items.foldl (fun acc d => if d.id == id then some d else acc) none

/-- `thumbnails?.medium?.url || thumbnails?.default?.url || ''`. -/
def thumbUrl (t : Thumbnails) : String :=
  match jsOrStr t.mediumUrl t.defaultUrl with
  | some s => if s.data.isEmpty then "" else s
  | none => ""

/-- The structured-location branch of `fetchChannelVideos`
(src/services/youtubeApi.ts lines 160-183): normalise the raw fields by
truthiness (`location.city || undefined`, `location.latitude ?
parseFloat(location.latitude) : undefined`), then, if both coordinates are
truthy but city or country is missing, backfill from the geocoder
(`city = city || geocoded.city`). -/
def locationFromDetails (geo : Geocoder) (location : RawLocation) : LocationData :=
  let city := jsOrStr location.city none
  let country := jsOrStr location.country none
  let latitude := if numTruthy location.latitude then location.latitude else none
  let longitude := if numTruthy location.longitude then location.longitude else none
  match latitude, longitude with
  | some la, some lo =>
    if !strTruthy city || !strTruthy country then
      let geocoded := geo la lo
      { city := jsOrStr city geocoded.city, country := jsOrStr country geocoded.country,
        latitude := some la, longitude := some lo }
    else
      { city := city, country := country, latitude := some la, longitude := some lo }
  | _, _ =>
    { city := city, country := country, latitude := latitude, longitude := longitude }

/-- The per-item body of `fetchChannelVideos` (src/services/youtubeApi.ts
lines 152-217): merge one search result with its detail record (if any) and
resolve its location. -/
def processItem (geo : Geocoder) (detailsMap : String → Option VideoDetail)
    (searchItem : SearchItem) : VideoData :=
  let videoDetails := detailsMap searchItem.videoId
  let snippet := (videoDetails.bind VideoDetail.snippet).getD searchItem.snippet
  let recordingDetails := videoDetails.bind VideoDetail.recordingDetails
  let locationData : Option LocationData :=
    match recordingDetails.bind RecordingDetails.location with
    | some location => some (locationFromDetails geo location)
    | none =>
      match snippet.locationDescription with
      | some locationDesc =>
        if locationDesc.data.isEmpty then none
        else
          some { city := extractCityFromDescription locationDesc,
                 country := extractCountryFromDescription locationDesc,
                 latitude := none, longitude := none }
      | none => none
  { id := searchItem.videoId
    title := snippet.title
    channelName := snippet.channelTitle
    publishedAt := snippet.publishedAt
    thumbnailUrl := thumbUrl snippet.thumbnails
    videoUrl := "https://www.youtube.com/watch?v=" ++ searchItem.videoId
    tags := snippet.tags.getD []
    location := locationData
    recordingDate := recordingDetails.bind RecordingDetails.recordingDate }

/-- `fetchChannelVideos` (src/services/youtubeApi.ts lines 104-226) as a
function of the two endpoint responses.  A failed search call (`none`)
throws and is caught at the bottom, returning `[]`; absent or empty search
items return `[]`; a failed detail call (`none`) throws at line 140 and is
caught by the same catch, also returning `[]` — the whole source fails, it
does not degrade to search-only items.  Only when the detail response is ok
are items built, each falling back to search-snippet fields where its
detail record is missing. -/
def fetchChannelVideos (geo : Geocoder) (searchResp : Option SearchData)
    (videosResp : Option VideosData) : List VideoData :=
  match searchResp with
  | none => []
  | some searchData =>
    match searchData.items with
    | none => []
    | some items =>
      if items.length == 0 then []
      else
        match videosResp with
        | none => []
        | some videosData =>
          let detailsMap := buildDetailsMap (videosData.items.getD [])
          items.map (processItem geo detailsMap)

/-- The selection predicate of `enhanceLocationData`
(src/services/youtubeApi.ts lines 232-237): a location exists, both
coordinates are truthy, and city or country is missing. -/
def needsEnhancement (video : VideoData) : Bool :=
  match video.location with
  | none => false
  | some loc =>
    numTruthy loc.latitude && numTruthy loc.longitude &&
      (!strTruthy loc.city || !strTruthy loc.country)

/-- The per-item body of the `enhanceLocationData` map
(src/services/youtubeApi.ts lines 247-267): re-test the selection
condition; if it holds, geocode the coordinates and fill city/country only
where absent; otherwise pass the item through unchanged. -/
def enhanceStep (geo : Geocoder) (video : VideoData) : VideoData :=
  if needsEnhancement video then
    match video.location with
    | some loc =>
      match loc.latitude, loc.longitude with
      | some la, some lo =>
        let geocoded := geo la lo
        { video with
          location := some { loc with
            city := jsOrStr loc.city geocoded.city,
            country := jsOrStr loc.country geocoded.country } }
      | _, _ => video
    | none => video
  else video

/-- `enhanceLocationData` (src/services/youtubeApi.ts lines 229-276): if no
video needs enhancement, return the input with no cache write (and no
geocoder call); otherwise map the enhancement over the whole list and
unconditionally save the result to the cache. -/
def enhanceLocationData (geo : Geocoder) (now : Int) (videos : List VideoData)
    (store : Option CachedData) : List VideoData × Option CachedData :=
  if (videos.filter needsEnhancement).length == 0 then
    (videos, store)
  else
    let enhancedVideos := videos.map (enhanceStep geo)
    (enhancedVideos, saveToCache now enhancedVideos store)

/-- `CHANNEL_IDS` (src/services/youtubeApi.ts lines 22-27). -/
def CHANNEL_IDS : List String :=
  ["UCynoa1DjwnvHAowA_jiMEAQ", "UCK0KOjX3beyB9nzonls0cuw",
   "UCACkIrvrGAQ7kuc0hMVwvmA", "UCtWRAKKvOEA0CXOue9BG8ZA"]

/-- Insert `x` into a descending-sorted list, before the first element whose
key is not greater than `x`'s (so before any tie — `x` always comes from
earlier in the input than the already-inserted tail). -/
def insertDesc (x : VideoData) : List VideoData → List VideoData
  | [] => [x]
  | w :: ws => if timeKey x < timeKey w then w :: insertDesc x ws else x :: w :: ws

/-- The sort of `fetchAllVideos` (src/services/youtubeApi.ts lines 300-302):
`allVideos.sort((a, b) => new Date(b.publishedAt).getTime() - new
Date(a.publishedAt).getTime())`.  JavaScript `Array.prototype.sort` is
stable (ES2019), and for a consistent comparator a stable sort's output is
the unique permutation of the input that is sorted by the comparator's
total preorder and keeps the input order among equivalent elements; this
stable insertion sort computes exactly that permutation (the theorems below
prove the permutation, sortedness and stability properties rather than
assuming them). -/
def sortVideos : List VideoData → List VideoData
  | [] => []
  | x :: xs => insertDesc x (sortVideos xs)

/-- `fetchAllVideos` (src/services/youtubeApi.ts lines 278-313) as a
function of the geocoder, the clock, the per-channel fetch outcomes and the
cache state.  Unless `forceRefresh`, a cache hit (any non-null list, even
empty) is routed through `enhanceLocationData`; otherwise all channels are
fetched, the concatenation is sorted by publication date descending and
saved to the cache. -/
def fetchAllVideos (geo : Geocoder) (now : Int)
    (channelFetch : String → List VideoData) (forceRefresh : Bool)
    (store : Option CachedData) : List VideoData × Option CachedData :=
  let cachedVideos := if forceRefresh then none else (getFromCache now store).1
  match cachedVideos with
  | some videos => enhanceLocationData geo now videos store
  | none =>
    let channelResults := CHANNEL_IDS.map channelFetch
    let allVideos := channelResults.flatten
    let sortedVideos := sortVideos allVideos
    (sortedVideos, saveToCache now sortedVideos store)

/-! ### Concrete sample data used by counterexamples and witnesses -/

/-- A geocoder that never resolves anything (the behaviour of
`reverseGeocode` when every call fails). -/
def geoNone : Geocoder := fun _ _ => { city := none, country := none }

/-- Build a minimal `VideoData`. -/
def mkVideo (id publishedAt : String) (location : Option LocationData) : VideoData :=
  { id := id, title := "t", channelName := "c", publishedAt := publishedAt,
    thumbnailUrl := "", videoUrl := "", tags := [], location := location,
    recordingDate := none }

/-- Build a minimal search snippet with the given location description. -/
def mkSnippet (locationDesc : Option String) : Snippet :=
  { title := "T", channelTitle := "C", publishedAt := "2024-01-01T00:00:00Z",
    thumbnails := { mediumUrl := none, defaultUrl := none }, tags := none,
    locationDescription := locationDesc }

def sampleVideo : VideoData := mkVideo "vid1" "2024-01-01T00:00:00Z" none

/-- A stored batch captured at epoch time 0. -/
def expiredStore : Option CachedData := some { videos := [sampleVideo], timestamp := 0 }

/-- 25 hours in milliseconds: a moment at which `expiredStore` is expired. -/
def hours25 : Int := 25 * 60 * 60 * 1000

/-! ### Claim theorems -/

/-- C8: applying the extraction functions to the description
"Lisbon, Portugal" yields city "Lisbon" and country "Portugal"; applying
them to the comma-less description "Unknown" extracts neither field. -/
theorem c8_location_parsing :
    extractCityFromDescription "Lisbon, Portugal" = some "Lisbon" ∧
    extractCountryFromDescription "Lisbon, Portugal" = some "Portugal" ∧
    extractCityFromDescription "Unknown" = none ∧
    extractCountryFromDescription "Unknown" = none :=
  ⟨by decide, by decide, by decide, by decide⟩

/-- C5: saving a batch and loading it back before the 24-hour window has
elapsed returns a list equal to the saved one in content and order. -/
theorem c5_cache_round_trip (videos : List VideoData) (now later : Int)
    (store : Option CachedData) (h : later - now ≤ CACHE_EXPIRATION_TIME) :
    (getFromCache later (saveToCache now videos store)).1 = some videos := by
  unfold getFromCache saveToCache
  simp only
  rw [if_neg (by omega)]

/-- Witness for C5 at a concrete input. -/
theorem c5_cache_round_trip_witness :
    (5 : Int) - 0 ≤ CACHE_EXPIRATION_TIME ∧
    (getFromCache 5 (saveToCache 0 [sampleVideo] none)).1 = some [sampleVideo] :=
  ⟨by decide, c5_cache_round_trip [sampleVideo] 0 5 none (by decide)⟩

/-- C2 (code bug): for a stored batch older than 24 hours, `getFromCache`
does return `null`, and a subsequent `isCacheValid` does return false, but
the stored batch is NOT cleared from storage: the source's
`await this.clearCache()` sits in an arrow function whose lexical `this` is
the module-level `this`, which has no `clearCache`, so the call throws a
TypeError that the surrounding catch swallows.  This theorem evaluates the
embedded code at a concrete expired batch: the load returns `none`, the
store is left unchanged (not cleared), and the validity check is false. -/
theorem c2_expired_cache_code_behavior :
    (getFromCache hours25 expiredStore).1 = none ∧
    (getFromCache hours25 expiredStore).2 = expiredStore ∧
    (getFromCache hours25 expiredStore).2 ≠ clearCache expiredStore ∧
    isCacheValid hours25 expiredStore = false :=
  ⟨by decide, by decide, by decide, by decide⟩

/-- C7: `enhanceLocationData` writes to the cache iff the incomplete subset
is non-empty.  When the subset is empty it returns the input list and the
store unchanged — the right-hand side of that branch does not mention the
geocoder, so no geocoder call is involved.  Otherwise it returns the
enhanced list and unconditionally overwrites the stored batch with that
list, stamped with the current time. -/
theorem c7_enhance_cache_write_iff (geo : Geocoder) (now : Int)
    (videos : List VideoData) (store : Option CachedData) :
    enhanceLocationData geo now videos store =
      if (videos.filter needsEnhancement).isEmpty then (videos, store)
      else
        (videos.map (enhanceStep geo),
         some { videos := videos.map (enhanceStep geo), timestamp := now }) := by
  unfold enhanceLocationData saveToCache
  rcases h : videos.filter needsEnhancement with _ | ⟨v, vs⟩ <;> simp [h]

/-! ### Helper lemmas about `enhanceStep` -/

/-- The city of an item, reading through the optional location. -/
def videoCity (v : VideoData) : Option String :=
  v.location.bind LocationData.city

/-- The country of an item, reading through the optional location. -/
def videoCountry (v : VideoData) : Option String :=
  v.location.bind LocationData.country

theorem jsOrStr_absorb (a b : Option String) :
    jsOrStr (jsOrStr a b) b = jsOrStr a b := by
  unfold jsOrStr
  by_cases h : strTruthy a <;> simp [h]

/-- The first projection of `enhanceLocationData`: the input when nothing
needs enhancement, otherwise the enhancement map over the whole list. -/
theorem enhanceLocationData_fst (geo : Geocoder) (now : Int)
    (videos : List VideoData) (store : Option CachedData) :
    (enhanceLocationData geo now videos store).1 =
      if (videos.filter needsEnhancement).isEmpty then videos
      else videos.map (enhanceStep geo) := by
  unfold enhanceLocationData
  rcases h : videos.filter needsEnhancement with _ | ⟨v, vs⟩ <;> simp [h]

theorem enhanceStep_of_not_needs (geo : Geocoder) (v : VideoData)
    (h : needsEnhancement v = false) : enhanceStep geo v = v := by
  simp [enhanceStep, h]

/-- When the selection condition holds, `enhanceStep` fills city and country
by `x || geocoded.x` over the item's own coordinates. -/
theorem enhanceStep_of_needs (geo : Geocoder) (v : VideoData)
    (loc : LocationData) (la lo : Int) (hn : needsEnhancement v = true)
    (hv : v.location = some loc) (hla : loc.latitude = some la)
    (hlo : loc.longitude = some lo) :
    enhanceStep geo v =
      { v with location := some { loc with
          city := jsOrStr loc.city (geo la lo).city,
          country := jsOrStr loc.country (geo la lo).country } } := by
  simp [enhanceStep, hn, hv, hla, hlo]

theorem enhanceStep_idem (geo : Geocoder) (v : VideoData) :
    enhanceStep geo (enhanceStep geo v) = enhanceStep geo v := by
  by_cases hn : needsEnhancement v
  · rcases hv : v.location with _ | loc
    · simp [needsEnhancement, hv] at hn
    · rcases hla : loc.latitude with _ | la
      · simp [needsEnhancement, hv, hla, numTruthy] at hn
      · rcases hlo : loc.longitude with _ | lo
        · simp [needsEnhancement, hv, hla, hlo, numTruthy] at hn
        · rw [enhanceStep_of_needs geo v loc la lo hn hv hla hlo]
          by_cases hn2 : needsEnhancement { v with location := some { loc with
              city := jsOrStr loc.city (geo la lo).city,
              country := jsOrStr loc.country (geo la lo).country } }
          · rw [enhanceStep_of_needs geo _ _ la lo hn2 rfl (by simp [hla]) (by simp [hlo])]
            simp [jsOrStr_absorb]
          · exact enhanceStep_of_not_needs geo _ (by simpa using hn2)
  · rw [enhanceStep_of_not_needs geo v (by simpa using hn),
        enhanceStep_of_not_needs geo v (by simpa using hn)]

theorem enhanceStep_city_preserved (geo : Geocoder) (v : VideoData)
    (h : strTruthy (videoCity v) = true) :
    videoCity (enhanceStep geo v) = videoCity v := by
  by_cases hn : needsEnhancement v
  · rcases hv : v.location with _ | loc
    · simp [needsEnhancement, hv] at hn
    · rcases hla : loc.latitude with _ | la
      · simp [needsEnhancement, hv, hla, numTruthy] at hn
      · rcases hlo : loc.longitude with _ | lo
        · simp [needsEnhancement, hv, hla, hlo, numTruthy] at hn
        · rw [enhanceStep_of_needs geo v loc la lo hn hv hla hlo]
          have hc : strTruthy loc.city = true := by
            rw [videoCity, hv] at h; simpa using h
          simp [videoCity, hv, jsOrStr, hc]
  · rw [enhanceStep_of_not_needs geo v (by simpa using hn)]

theorem enhanceStep_country_preserved (geo : Geocoder) (v : VideoData)
    (h : strTruthy (videoCountry v) = true) :
    videoCountry (enhanceStep geo v) = videoCountry v := by
  by_cases hn : needsEnhancement v
  · rcases hv : v.location with _ | loc
    · simp [needsEnhancement, hv] at hn
    · rcases hla : loc.latitude with _ | la
      · simp [needsEnhancement, hv, hla, numTruthy] at hn
      · rcases hlo : loc.longitude with _ | lo
        · simp [needsEnhancement, hv, hla, hlo, numTruthy] at hn
        · rw [enhanceStep_of_needs geo v loc la lo hn hv hla hlo]
          have hc : strTruthy loc.country = true := by
            rw [videoCountry, hv] at h; simpa using h
          simp [videoCountry, hv, jsOrStr, hc]
  · rw [enhanceStep_of_not_needs geo v (by simpa using hn)]

/-- `enhanceStep` can only change the location's city and country: every
other field, the presence of the location and both coordinates are kept. -/
theorem enhanceStep_frame (geo : Geocoder) (v : VideoData) :
    (enhanceStep geo v).id = v.id ∧ (enhanceStep geo v).title = v.title ∧
    (enhanceStep geo v).channelName = v.channelName ∧
    (enhanceStep geo v).publishedAt = v.publishedAt ∧
    (enhanceStep geo v).thumbnailUrl = v.thumbnailUrl ∧
    (enhanceStep geo v).videoUrl = v.videoUrl ∧
    (enhanceStep geo v).tags = v.tags ∧
    (enhanceStep geo v).recordingDate = v.recordingDate ∧
    (enhanceStep geo v).location.isSome = v.location.isSome ∧
    (enhanceStep geo v).location.map LocationData.latitude
      = v.location.map LocationData.latitude ∧
    (enhanceStep geo v).location.map LocationData.longitude
      = v.location.map LocationData.longitude := by
  by_cases hn : needsEnhancement v
  · rcases hv : v.location with _ | loc
    · simp [needsEnhancement, hv] at hn
    · rcases hla : loc.latitude with _ | la
      · simp [needsEnhancement, hv, hla, numTruthy] at hn
      · rcases hlo : loc.longitude with _ | lo
        · simp [needsEnhancement, hv, hla, hlo, numTruthy] at hn
        · rw [enhanceStep_of_needs geo v loc la lo hn hv hla hlo]
          simp [hv, hla, hlo]
  · rw [enhanceStep_of_not_needs geo v (by simpa using hn)]
    simp

/-- C6: with a deterministic geocoder, enhancing twice yields the same
output as enhancing once, and no already-populated city or country is ever
overwritten (each output item keeps any populated name of its input
item). -/
theorem c6_enhance_idempotent (geo : Geocoder) (now now2 : Int)
    (videos : List VideoData) (store store2 : Option CachedData) :
    (enhanceLocationData geo now2
        ((enhanceLocationData geo now videos store).1) store2).1
      = (enhanceLocationData geo now videos store).1 ∧
    List.Forall₂ (fun v w =>
        (strTruthy (videoCity v) = true → videoCity w = videoCity v) ∧
        (strTruthy (videoCountry v) = true → videoCountry w = videoCountry v))
      videos ((enhanceLocationData geo now videos store).1) := by
  constructor
  · rw [enhanceLocationData_fst geo now videos store]
    by_cases h : (videos.filter needsEnhancement).isEmpty
    · rw [if_pos h, enhanceLocationData_fst, if_pos h]
    · rw [if_neg h, enhanceLocationData_fst]
      by_cases h2 : ((videos.map (enhanceStep geo)).filter needsEnhancement).isEmpty
      · rw [if_pos h2]
      · rw [if_neg h2, List.map_map]
        exact List.map_congr_left fun v _ => enhanceStep_idem geo v
  · rw [enhanceLocationData_fst geo now videos store]
    by_cases h : (videos.filter needsEnhancement).isEmpty
    · rw [if_pos h]
      exact List.forall₂_same.mpr fun v _ => ⟨fun _ => rfl, fun _ => rfl⟩
    · rw [if_neg h]
      exact List.forall₂_map_right_iff.mpr (List.forall₂_same.mpr fun v _ =>
        ⟨enhanceStep_city_preserved geo v, enhanceStep_country_preserved geo v⟩)

/-- C10: `enhanceLocationData` preserves the length of its input, and every
output item agrees with the input item at its position on every field
except possibly the location's city and country; in particular the
location's presence and both coordinates are preserved. -/
theorem c10_enhance_shape_preserved (geo : Geocoder) (now : Int)
    (videos : List VideoData) (store : Option CachedData) :
    (enhanceLocationData geo now videos store).1.length = videos.length ∧
    List.Forall₂ (fun v w =>
        w.id = v.id ∧ w.title = v.title ∧ w.channelName = v.channelName ∧
        w.publishedAt = v.publishedAt ∧ w.thumbnailUrl = v.thumbnailUrl ∧
        w.videoUrl = v.videoUrl ∧ w.tags = v.tags ∧
        w.recordingDate = v.recordingDate ∧
        w.location.isSome = v.location.isSome ∧
        w.location.map LocationData.latitude
          = v.location.map LocationData.latitude ∧
        w.location.map LocationData.longitude
          = v.location.map LocationData.longitude)
      videos ((enhanceLocationData geo now videos store).1) := by
  rw [enhanceLocationData_fst geo now videos store]
  by_cases h : (videos.filter needsEnhancement).isEmpty
  · rw [if_pos h]
    exact ⟨rfl, List.forall₂_same.mpr fun v _ =>
      ⟨rfl, rfl, rfl, rfl, rfl, rfl, rfl, rfl, rfl, rfl, rfl⟩⟩
  · rw [if_neg h]
    exact ⟨List.length_map _ _, List.forall₂_map_right_iff.mpr
      (List.forall₂_same.mpr fun v _ => enhanceStep_frame geo v)⟩

/-- C9: the selection test of `enhanceLocationData` uses JavaScript
truthiness on the coordinates, so an item whose latitude or longitude is 0
is never selected: it passes through unchanged (for every geocoder, hence
with no geocoder call) even when city and country are both absent.
Likewise the structured-location branch of `fetchChannelVideos` maps a raw
coordinate equal to 0 to an absent coordinate. -/
theorem c9_zero_coordinates (geo : Geocoder) (now : Int)
    (videos : List VideoData) (store : Option CachedData) :
    (∀ v loc, v.location = some loc →
        loc.latitude = some 0 ∨ loc.longitude = some 0 →
        needsEnhancement v = false) ∧
    List.Forall₂ (fun v w => ∀ loc, v.location = some loc →
        loc.latitude = some 0 ∨ loc.longitude = some 0 → w = v)
      videos ((enhanceLocationData geo now videos store).1) ∧
    (∀ raw : RawLocation, raw.latitude = some 0 →
        (locationFromDetails geo raw).latitude = none) ∧
    (∀ raw : RawLocation, raw.longitude = some 0 →
        (locationFromDetails geo raw).longitude = none) := by
  have hsel : ∀ v loc, v.location = some loc →
      loc.latitude = some 0 ∨ loc.longitude = some 0 →
      needsEnhancement v = false := by
    intro v loc hv hz
    rcases hz with hz | hz <;> simp [needsEnhancement, hv, hz, numTruthy]
  refine ⟨hsel, ?_, ?_, ?_⟩
  · rw [enhanceLocationData_fst geo now videos store]
    by_cases h : (videos.filter needsEnhancement).isEmpty
    · rw [if_pos h]
      exact List.forall₂_same.mpr fun v _ => fun _ _ _ => rfl
    · rw [if_neg h]
      exact List.forall₂_map_right_iff.mpr (List.forall₂_same.mpr fun v _ =>
        fun loc hv hz => enhanceStep_of_not_needs geo v (hsel v loc hv hz))
  · intro raw hz
    simp [locationFromDetails, hz, numTruthy]
  · intro raw hz
    rcases hla : raw.latitude with _ | la
    · simp [locationFromDetails, hla, hz, numTruthy]
    · by_cases h0 : la = 0
      · simp [locationFromDetails, hla, hz, h0, numTruthy]
      · simp [locationFromDetails, hla, hz, h0, numTruthy]

/-- Witness for C9 at a concrete input: an item on the equator (latitude 0)
with no names is not selected, passes through enhancement unchanged, and a
raw detail latitude of 0 becomes an absent coordinate. -/
def zeroLoc : LocationData :=
  { city := none, country := none, latitude := some 0, longitude := some 5 }

def zeroVideo : VideoData := mkVideo "z" "2024-01-01T00:00:00Z" (some zeroLoc)

def rawZero : RawLocation :=
  { city := none, country := none, latitude := some 0, longitude := some 5 }

theorem c9_zero_coordinates_witness :
    needsEnhancement zeroVideo = false ∧
    (enhanceLocationData geoNone 0 [zeroVideo] none).1 = [zeroVideo] ∧
    (locationFromDetails geoNone rawZero).latitude = none := by
  obtain ⟨h1, h2, h3, _⟩ := c9_zero_coordinates geoNone 0 [zeroVideo] none
  exact ⟨h1 zeroVideo zeroLoc rfl (Or.inl rfl), rfl, h3 rawZero rfl⟩

/-- A search item with no location description. -/
def plainItem : SearchItem := { videoId := "vid1", snippet := mkSnippet none }

/-- A search item whose snippet carries the comma-less location description
"Unknown". -/
def unknownDescItem : SearchItem :=
  { videoId := "vidU", snippet := mkSnippet (some "Unknown") }

/-- C1 counterexample: a source whose search call succeeds with a non-empty
item list, but whose detail call fails, yields the empty list — the source
throws on the failed detail response (line 140) and the per-source catch
(line 222) returns `[]`, so a detail failure alone does empty the source,
contrary to the claim. -/
theorem c1_counterexample :
    [plainItem].length ≠ 0 ∧
    fetchChannelVideos geoNone (some { items := some [plainItem] }) none = [] :=
  ⟨by decide, rfl⟩

/-- C1 amended: a failure of the detail call yields the empty list for that
source (the thrown error is caught by the per-source handler, not degraded);
the graceful degradation the spec describes happens only when the detail
call succeeds but carries no matching detail records — then one item per
search result is produced, in order, built from the search snippet alone
(tags default to empty, recording date absent). -/
theorem c1_detail_failure_amended (geo : Geocoder) (searchResp : Option SearchData)
    (items : List SearchItem) :
    fetchChannelVideos geo searchResp none = [] ∧
    List.Forall₂ (fun it v =>
        v.id = it.videoId ∧ v.title = it.snippet.title ∧
        v.channelName = it.snippet.channelTitle ∧
        v.publishedAt = it.snippet.publishedAt ∧
        v.tags = it.snippet.tags.getD [] ∧ v.recordingDate = none)
      items
      (fetchChannelVideos geo (some { items := some items })
        (some { items := none })) := by
  constructor
  · rcases searchResp with _ | sd
    · rfl
    · rcases hi : sd.items with _ | its
      · simp [fetchChannelVideos, hi]
      · rcases its with _ | ⟨a, rest⟩ <;> simp [fetchChannelVideos, hi]
  · rcases items with _ | ⟨a, rest⟩
    · exact List.Forall₂.nil
    · show List.Forall₂ _ _ ((a :: rest).map (processItem geo (buildDetailsMap [])))
      exact List.forall₂_map_right_iff.mpr (List.forall₂_same.mpr fun it _ =>
        ⟨rfl, rfl, rfl, rfl, rfl, rfl⟩)

/-- C4 counterexample: on the description-parsing branch with the comma-less
description "Unknown", neither city nor country can be extracted, yet the
code still assigns `locationData = {city: undefined, country: undefined}` —
a GeoInfo with neither coordinates nor display names IS constructed, rather
than the field being omitted. -/
theorem c4_counterexample :
    (fetchChannelVideos geoNone (some { items := some [unknownDescItem] })
        (some { items := none })).map VideoData.location
      = [some { city := none, country := none, latitude := none, longitude := none }] := by
  decide

/-- C4 amended: when an item has no structured location and no (nonempty)
location description, its location field is indeed omitted; but when a
nonempty description is present the code always constructs a GeoInfo from
the two extraction results, even when both fail — so a GeoInfo with neither
coordinates nor names is produced exactly on the description branch with a
description from which nothing can be extracted. -/
theorem c4_geoinfo_invariant_amended (geo : Geocoder) (it : SearchItem) :
    (it.snippet.locationDescription = none →
      (processItem geo (fun _ => none) it).location = none) ∧
    (∀ d, it.snippet.locationDescription = some d → d.data ≠ [] →
      (processItem geo (fun _ => none) it).location =
        some { city := extractCityFromDescription d,
               country := extractCountryFromDescription d,
               latitude := none, longitude := none }) := by
  constructor
  · intro h
    simp [processItem, h]
  · intro d hd hne
    simp [processItem, hd, hne]

/-- Witness for C4 at concrete inputs: an item with no description gets no
location; an item with description "Unknown" gets the all-absent GeoInfo. -/
theorem c4_geoinfo_invariant_amended_witness :
    (processItem geoNone (fun _ => none) plainItem).location = none ∧
    (processItem geoNone (fun _ => none) unknownDescItem).location =
      some { city := none, country := none, latitude := none, longitude := none } := by
  refine ⟨(c4_geoinfo_invariant_amended geoNone plainItem).1 rfl, ?_⟩
  have h := (c4_geoinfo_invariant_amended geoNone unknownDescItem).2 "Unknown" rfl
    (by decide)
  rw [h]
  decide

/-! ### Lemmas about the stable sort of `fetchAllVideos` -/

theorem insertDesc_perm (x : VideoData) (l : List VideoData) :
    (insertDesc x l).Perm (x :: l) := by
  induction l with
  | nil => exact List.Perm.refl _
  | cons w ws ih =>
    unfold insertDesc
    by_cases hx : timeKey x < timeKey w
    · rw [if_pos hx]
      exact (ih.cons w).trans (List.Perm.swap x w ws)
    · rw [if_neg hx]

theorem sortVideos_perm (l : List VideoData) : (sortVideos l).Perm l := by
  induction l with
  | nil => exact List.Perm.refl _
  | cons x xs ih =>
    exact (insertDesc_perm x (sortVideos xs)).trans (ih.cons x)

theorem pairwise_insertDesc (x : VideoData) (l : List VideoData)
    (h : l.Pairwise (fun a b => timeKey b ≤ timeKey a)) :
    (insertDesc x l).Pairwise (fun a b => timeKey b ≤ timeKey a) := by
  induction l with
  | nil => simp [insertDesc]
  | cons w ws ih =>
    rw [List.pairwise_cons] at h
    obtain ⟨hw, hws⟩ := h
    unfold insertDesc
    by_cases hx : timeKey x < timeKey w
    · rw [if_pos hx, List.pairwise_cons]
      refine ⟨fun b hb => ?_, ih hws⟩
      rcases List.mem_cons.mp (((insertDesc_perm x ws).mem_iff).mp hb) with hb | hb
      · rw [hb]; exact le_of_lt hx
      · exact hw b hb
    · rw [if_neg hx, List.pairwise_cons]
      refine ⟨fun b hb => ?_, List.pairwise_cons.mpr ⟨hw, hws⟩⟩
      rcases List.mem_cons.mp hb with hb | hb
      · rw [hb]; exact le_of_not_lt hx
      · exact le_trans (hw b hb) (le_of_not_lt hx)

theorem sortVideos_pairwise (l : List VideoData) :
    (sortVideos l).Pairwise (fun a b => timeKey b ≤ timeKey a) := by
  induction l with
  | nil => simp [sortVideos]
  | cons x xs ih => exact pairwise_insertDesc x (sortVideos xs) ih

theorem sublist_insertDesc (x : VideoData) {s l : List VideoData}
    (hs : s.Sublist l) : s.Sublist (insertDesc x l) := by
  induction l generalizing s with
  | nil =>
    rw [List.sublist_nil.mp hs]
    exact List.nil_sublist _
  | cons w ws ih =>
    unfold insertDesc
    by_cases hx : timeKey x < timeKey w
    · rw [if_pos hx]
      cases hs with
      | cons _ hs2 => exact (ih hs2).cons w
      | cons₂ _ hs2 => exact (ih hs2).cons₂ w
    · rw [if_neg hx]
      exact hs.cons x

theorem pair_sublist_insertDesc (x b : VideoData) (l : List VideoData)
    (hle : timeKey b ≤ timeKey x) (hb : b ∈ l) :
    [x, b].Sublist (insertDesc x l) := by
  induction l with
  | nil => cases hb
  | cons w ws ih =>
    unfold insertDesc
    by_cases hx : timeKey x < timeKey w
    · rw [if_pos hx]
      rcases List.mem_cons.mp hb with hb | hb
      · subst hb
        exact absurd (lt_of_le_of_lt hle hx) (lt_irrefl _)
      · exact (ih hb).cons w
    · rw [if_neg hx]
      exact (List.singleton_sublist.mpr hb).cons₂ x

theorem pair_sublist_sortVideos {a b : VideoData} {l : List VideoData}
    (h : [a, b].Sublist l) (hle : timeKey b ≤ timeKey a) :
    [a, b].Sublist (sortVideos l) := by
  induction l with
  | nil => simp at h
  | cons x xs ih =>
    cases h with
    | cons _ h2 => exact sublist_insertDesc x (ih h2)
    | cons₂ _ h2 =>
      exact pair_sublist_insertDesc a b (sortVideos xs) hle
        ((sortVideos_perm xs).mem_iff.mpr (List.singleton_sublist.mp h2))

/-! ### The concrete example of the global-sort claim -/

def vJan : VideoData := mkVideo "a-jan" "2024-01-01T00:00:00Z" none
def vMar : VideoData := mkVideo "a-mar" "2024-03-01T00:00:00Z" none
def vFeb : VideoData := mkVideo "b-feb" "2024-02-01T00:00:00Z" none

/-- Per-channel outcomes for the claim's example: the first configured
channel (source A) returns items dated 2024-01-01 and 2024-03-01, the
second (source B) one item dated 2024-02-01, the rest nothing. -/
def exampleChannelFetch : String → List VideoData := fun channelId =>
  if channelId = "UCynoa1DjwnvHAowA_jiMEAQ" then [vJan, vMar]
  else if channelId = "UCK0KOjX3beyB9nzonls0cuw" then [vFeb]
  else []

/-- C3: on the fetch path (`forceRefresh = true`), `fetchAllVideos` returns
a permutation of the concatenation of the per-source results, sorted by
`publishedAt` descending, with ties preserving concatenation order (any two
items in concatenation order whose keys are equal stay in that order); and
on the claim's concrete example the result is
2024-03-01, 2024-02-01, 2024-01-01.  The hypothesis scopes the statement to
well-formed ISO timestamps (on ill-formed ones JavaScript's comparator
returns NaN and the sort order is implementation-defined). -/
theorem c3_fetch_sorted (geo : Geocoder) (now : Int)
    (channelFetch : String → List VideoData) (store : Option CachedData)
    (_hvalid : ∀ v ∈ (CHANNEL_IDS.map channelFetch).flatten,
        (parseISOTime v.publishedAt).isSome = true) :
    ((fetchAllVideos geo now channelFetch true store).1).Perm
        ((CHANNEL_IDS.map channelFetch).flatten) ∧
    ((fetchAllVideos geo now channelFetch true store).1).Pairwise
        (fun a b => timeKey b ≤ timeKey a) ∧
    (∀ a b, [a, b].Sublist ((CHANNEL_IDS.map channelFetch).flatten) →
        timeKey a = timeKey b →
        [a, b].Sublist ((fetchAllVideos geo now channelFetch true store).1)) ∧
    (fetchAllVideos geoNone 0 exampleChannelFetch true none).1
      = [vMar, vFeb, vJan] := by
  refine ⟨sortVideos_perm _, sortVideos_pairwise _, ?_, by decide⟩
  intro a b hab htie
  exact pair_sublist_sortVideos hab (le_of_eq htie.symm)

/-- Witness for C3: the well-formedness hypothesis holds on the example
channels, and the theorem instantiates to the claim's example output. -/
theorem c3_fetch_sorted_witness :
    (∀ v ∈ (CHANNEL_IDS.map exampleChannelFetch).flatten,
        (parseISOTime v.publishedAt).isSome = true) ∧
    (fetchAllVideos geoNone 0 exampleChannelFetch true none).1
      = [vMar, vFeb, vJan] := by
  have h := c3_fetch_sorted geoNone 0 exampleChannelFetch none (by decide)
  exact ⟨by decide, h.2.2.2⟩
